import Mathlib

/-!
Verification of the housing-dashboard core (metric engine, city→metro
matcher, ZIP→metro filter) against its natural-language specification.

The Python source is embedded shallowly:
- pandas DataFrames become Lean lists of structure values;
- numeric columns become `ℚ` (exact rationals standing in for float64);
  a nullable numeric cell becomes `Option ℚ` with `none` playing NaN;
- the float special values produced by division (`NaN`, `±inf`) are made
  explicit through the `FVal` type where a computation can produce them;
- Python strings become `String`, with `lower`/`upper`/`strip`/`split`/
  substring-containment modelled by executable Lean functions below.
  (`pandas.Series.str.contains` is applied only to patterns without regex
  metacharacters here, so literal substring containment is the faithful
  model.)
- `Series.round(1)` is modelled by `roundTo1`; numpy rounds ties to even
  while `roundTo1` rounds ties up, but no statement below sits on a tie.
-/

/-! ## String helpers (Python `in`, `strip`, `lower`, `upper`, `split`,
slicing), written over `List Char` by structural recursion so that every
one of them evaluates inside the kernel. -/

/-- Char-list version of Python `startswith`. -/
def charsStart : List Char → List Char → Bool
  | [], _ => true
  | _ :: _, [] => false
  | a :: as, b :: bs => a = b && charsStart as bs

/-- Char-list version of Python `needle in hay` (substring containment). -/
def charsContain (needle : List Char) : List Char → Bool
  | [] => needle.isEmpty
  | a :: t => charsStart needle (a :: t) || charsContain needle t

/-- Python `needle in hay` on strings. -/
def strContains (hay needle : String) : Bool :=
  charsContain needle.toList hay.toList

/-- Python `a or b` on strings (empty string is falsy). -/
def pyOr (a b : String) : String :=
  if a = "" then b else a

/-- ASCII lowercase of one character (`str.lower`; the source only
lowercases ASCII names). -/
def charLower (c : Char) : Char :=
  if 'A' ≤ c ∧ c ≤ 'Z' then Char.ofNat (c.toNat + 32) else c

/-- ASCII uppercase of one character (`str.upper`). -/
def charUpper (c : Char) : Char :=
  if 'a' ≤ c ∧ c ≤ 'z' then Char.ofNat (c.toNat - 32) else c

/-- Python `str.lower`. -/
def strLower (s : String) : String := String.mk (s.toList.map charLower)

/-- Python `str.upper`. -/
def strUpper (s : String) : String := String.mk (s.toList.map charUpper)

/-- The whitespace characters removed by Python `str.strip()`. -/
def pyWs : List Char := [' ', '\t', '\n', '\r', '\x0b', '\x0c']

/-- Drop leading whitespace. -/
def dropWsLeft : List Char → List Char
  | [] => []
  | c :: t => if c ∈ pyWs then dropWsLeft t else c :: t

/-- Python `str.strip()` on a char list: drop whitespace at both ends. -/
def trimChars (l : List Char) : List Char :=
  (dropWsLeft (dropWsLeft l).reverse).reverse

/-- Python `str.strip()`. -/
def strTrim (s : String) : String := String.mk (trimChars s.toList)

/-- Python `str.split(sep)` for a one-character separator, char-list
version.  Splitting the empty string yields `[""]`, and adjacent
separators yield empty parts, as in Python. -/
def splitOnChar (sep : Char) : List Char → List (List Char)
  | [] => [[]]
  | c :: t =>
    let r := splitOnChar sep t
    if c = sep then [] :: r
    else
      match r with
      | [] => [[c]]
      | h :: t2 => (c :: h) :: t2

/-- Python `str.split(sep)` for a one-character separator. -/
def strSplitOn (s : String) (sep : Char) : List String :=
  (splitOnChar sep s.toList).map String.mk

/-- Python slicing `s[:2]`. -/
def strTake2 (s : String) : String := String.mk (s.toList.take 2)

/-- Python `dict` lookup over an association list of strings. -/
def lookupStr (m : List (String × String)) (k : String) : Option String :=
  match m with
  | [] => none
  | (a, v) :: t => if a = k then some v else lookupStr t k

/-- Remove duplicates keeping the first occurrence
(Python `list(dict.fromkeys(tokens))`). -/
def dedupFirstAux {α : Type} [DecidableEq α] (seen : List α) : List α → List α
  | [] => []
  | a :: t =>
    if seen.any (fun x => x = a) then dedupFirstAux seen t
    else a :: dedupFirstAux (a :: seen) t

/-- First-occurrence deduplication, entry point. -/
def dedupFirst {α : Type} [DecidableEq α] (l : List α) : List α :=
  dedupFirstAux [] l

/-- Pandas `Series.round(1)`: round to one decimal digit. -/
def roundTo1 (q : ℚ) : ℚ :=
  (round (10 * q) : ℤ) / 10

/-! ## Metric engine (`config_data.py`) -/

/-- A row as seen by `compute_pti`: the two columns it reads, nullable. -/
structure PtiRow where
  median_sale_price : Option ℚ
  per_capita_income : Option ℚ
deriving DecidableEq, Repr

/-- Function `compute_pti`: filter to rows with non-null price/income, price > 0 and
income ≥ 5000; compute `PTI = price / income`; blank out (set to NaN) PTI
values `< 0.5` or `> 50`; drop the blanked rows.  Output pairs each
surviving row with its PTI value. -/
def compute_pti (df : List PtiRow) : List (PtiRow × ℚ) :=
  let valid := df.filter (fun r =>
    match r.median_sale_price, r.per_capita_income with
    | some p, some i => decide (0 < p) && decide (5000 ≤ i)
    | _, _ => false)
  let withPti := valid.map (fun r =>
    (r, (r.median_sale_price.getD 0) / (r.per_capita_income.getD 0)))
  let masked := withPti.map (fun rp =>
    if rp.2 < 1/2 ∨ 50 < rp.2 then (rp.1, (none : Option ℚ))
    else (rp.1, some rp.2))
  masked.filterMap (fun rp => rp.2.map (fun v => (rp.1, v)))

/-- Output row of `compute_rankings`: the input row plus the three added
columns. -/
structure RankedRow (α : Type) where
  row : α
  rank : ℕ
  rank_total : ℕ
  percentile : ℚ
deriving DecidableEq, Repr

/-- pandas `rank(ascending=False, method="min")` of value `v` within the
column `vals`: one plus the number of strictly greater values. -/
def rankOf (vals : List ℚ) (v : ℚ) : ℕ :=
  1 + vals.countP (fun w => decide (v < w))

/-- The row of the `compute_rankings` output built for input row `r`:
its rank within the value column, the group size, and the percentile
(`(rank_total - rank + 1) / rank_total * 100`, rounded to one decimal). -/
def rankedFor {α : Type} (value : α → ℚ) (df : List α) (r : α) : RankedRow α :=
  { row := r
    rank := rankOf (df.map value) (value r)
    rank_total := df.length
    percentile := roundTo1
      (((df.length : ℚ) - rankOf (df.map value) (value r) + 1) / df.length * 100) }

/-- Function `compute_rankings`: add `rank` (descending, min tie-break),
`rank_total` (row count) and `percentile` to every row. -/
def compute_rankings {α : Type} (value : α → ℚ) (df : List α) : List (RankedRow α) :=
  df.map (rankedFor value df)

/-- Float result of the YoY division: finite, NaN, or a signed infinity. -/
inductive FVal where
  | nan : FVal
  | pinf : FVal
  | ninf : FVal
  | fin : ℚ → FVal
deriving DecidableEq, Repr

/-- Row as seen by `compute_yoy`: the grouping key (the `group_cols`
tuple collapsed to one value), the year, and the value column. -/
structure YRow where
  key : String
  year : ℤ
  value : ℚ
deriving DecidableEq, Repr

/-- Output row of `compute_yoy` (merged current/previous group table). -/
structure YoYRow where
  key : String
  value : FVal
  yoy_change : FVal
  yoy_pct : FVal
deriving DecidableEq, Repr

/-- Mean of the value column over the rows of group `k`. -/
def groupMean (df : List YRow) (k : String) : ℚ :=
  let vs := (df.filter (fun r => r.key = k)).map YRow.value
  vs.sum / vs.length

/-- Column `merged["yoy_change"]`: current minus previous group mean, NaN when the
left join found no previous-year group. -/
def yoyChange (cur : ℚ) (prev : Option ℚ) : FVal :=
  match prev with
  | none => FVal.nan
  | some p => FVal.fin (cur - p)

/-- Column `merged["yoy_pct"] = (yoy_change / prev * 100).round(1)` under float64
semantics: NaN when previous is missing, `±inf` (or NaN for `0/0`) when the
previous mean is zero, otherwise the rounded percentage. -/
def yoyPct (cur : ℚ) (prev : Option ℚ) : FVal :=
  match prev with
  | none => FVal.nan
  | some p =>
    if p = 0 then
      if 0 < cur - p then FVal.pinf
      else if cur - p < 0 then FVal.ninf
      else FVal.nan
    else FVal.fin (roundTo1 ((cur - p) / p * 100))

/-- Function `compute_yoy`: split `df_all` into the current and previous year;
when the previous year has no rows at all, return the current rows with
NaN YoY columns; otherwise group-average both sides, left-join current
onto previous on the key, and derive `yoy_change` / `yoy_pct`. -/
def compute_yoy (df_all : List YRow) (current_year : ℤ) : List YoYRow :=
  let prev_year := current_year - 1
  let df_current := df_all.filter (fun r => r.year = current_year)
  let df_prev := df_all.filter (fun r => r.year = prev_year)
  if df_prev.isEmpty then
    df_current.map (fun r =>
      { key := r.key, value := FVal.fin r.value
        yoy_change := FVal.nan, yoy_pct := FVal.nan })
  else
    let curKeys := dedupFirst (df_current.map YRow.key)
    curKeys.map (fun k =>
      let cur := groupMean df_current k
      let prevOpt :=
        if (df_prev.filter (fun r => r.key = k)).isEmpty then none
        else some (groupMean df_prev k)
      { key := k, value := FVal.fin cur
        yoy_change := yoyChange cur prevOpt
        yoy_pct := yoyPct cur prevOpt })

/-! ## City→metro matcher (`geo_utils.py`) -/

/-- A CBSA boundary row: official `NAME`, the precomputed EPSG-4326
centroid coordinates, and an abstract geometry identifier (the polygon
itself is opaque to the matching logic). -/
structure Boundary where
  name : String
  centroidLat : ℚ
  centroidLon : ℚ
  geomId : ℕ
deriving DecidableEq, Repr

/-- An aggregated city-level metric row as consumed by the matcher loop:
`city`, `city_full`, `avg_metric_value`, and the optional coordinates
(`none` models a missing / non-finite `lat` or `lon`). -/
structure CityRow where
  city : String
  city_full : String
  avg_metric_value : ℚ
  lat : Option ℚ
  lon : Option ℚ
deriving DecidableEq, Repr

/-- Function `parse_city_state`: split `city_full or city` on commas, return the
stripped city part and the first two characters of the uppercased state
part. -/
def parse_city_state (city city_full : String) : String × String :=
  let raw := pyOr (pyOr city_full city) ""
  let parts := (strSplitOn raw ',').map strTrim
  let city_part := parts.getD 0 ""
  let state_part := parts.getD 1 ""
  let city_base := strTrim city_part
  let state_abbrev :=
    if state_part = "" then "" else strTake2 (strUpper (strTrim state_part))
  (city_base, state_abbrev)

/-- The hyphen-like separators recognised by `build_city_tokens`
(each is a single character in the source). -/
def citySeps : List Char := ['-', '–', '—']

/-- Function `build_city_tokens`: lowercase and strip the base name; the whole name
is a token, and for each separator occurring in it the stripped non-empty
split parts are appended; duplicates removed keeping first occurrence. -/
def build_city_tokens (city_base : String) : List String :=
  let cb := strLower (strTrim city_base)
  if cb = "" then []
  else
    dedupFirst ([cb] ++ citySeps.flatMap (fun sep =>
      if cb.toList.any (fun c => c = sep) then
        ((strSplitOn cb sep).map strTrim).filter (fun t => ¬ t = "")
      else []))

/-- Table `MANUAL_CBSA_NAME_MAP` from `config_data.py` (keys are lowercase). -/
def MANUAL_CBSA_NAME_MAP : List (String × String) :=
  [("dc_metro", "Washington-Arlington-Alexandria, DC-VA-MD-WV")]

/-- Function `resolve_manual_cbsa_name`: look the stripped lowercased label up in
the manual map; otherwise any label containing "boston" maps to the
Boston CBSA name; otherwise no override. -/
def resolve_manual_cbsa_name (city city_full : String) : Option String :=
  let key := strLower (strTrim (pyOr (pyOr city_full city) ""))
  match lookupStr MANUAL_CBSA_NAME_MAP key with
  | some v => some v
  | none =>
    if strContains key "boston" then some "Boston-Cambridge-Newton, MA-NH"
    else none

/-- Stage 2a: boundaries whose lowercased `NAME` equals the lowercased
full city label. -/
def exactMatches (gdf : List Boundary) (city_full_lower : String) : List Boundary :=
  gdf.filter (fun b => strLower b.name = city_full_lower)

/-- Stage 2b: boundaries whose lowercased `NAME` contains the lowercased
full city label as a substring. -/
def containsMatches (gdf : List Boundary) (city_full_lower : String) : List Boundary :=
  gdf.filter (fun b => strContains (strLower b.name) city_full_lower)

/-- Stage 3 base mask: boundaries whose lowercased `NAME` contains any of
the city tokens. -/
def tokenMatches (gdf : List Boundary) (tokens : List String) : List Boundary :=
  gdf.filter (fun b => tokens.any (fun t => strContains (strLower b.name) t))

/-- Stage 3 state restriction: keep boundaries whose uppercased `NAME`
contains the (uppercased) state abbreviation. -/
def stateMatches (l : List Boundary) (state_abbrev : String) : List Boundary :=
  l.filter (fun b => strContains (strUpper b.name) state_abbrev)

/-- Stages 2–3 of the matcher loop: the candidate set produced by the
string-matching stages for one row (empty when every stage fails,
including the case where the state restriction empties a non-empty
token-matched set). -/
def stringCandidates (gdf : List Boundary) (row : CityRow) : List Boundary :=
  let cfl := strLower row.city_full
  let exact := exactMatches gdf cfl
  let contains := if exact.isEmpty then containsMatches gdf cfl else exact
  if contains.isEmpty then
    let cs := parse_city_state row.city row.city_full
    let tokens := build_city_tokens cs.1
    if ¬ tokens = [] then
      let base := tokenMatches gdf tokens
      if ¬ base = [] then
        if ¬ cs.2 = "" then
          let both := stateMatches base cs.2
          if ¬ both = [] then both else []
        else base
      else []
    else []
  else contains

/-- Squared Euclidean distance in degree space from a boundary's centroid
to the row's point (`dlat*dlat + dlon*dlon`). -/
def dist2 (b : Boundary) (lat0 lon0 : ℚ) : ℚ :=
  (b.centroidLat - lat0) * (b.centroidLat - lat0) +
    (b.centroidLon - lon0) * (b.centroidLon - lon0)

/-- Pandas `sort_values("dist2")` followed by `iloc[0]`: a candidate of minimal
squared distance (the earliest such candidate in our model; the claim
settled below only uses minimality). -/
def argminD2 (lat0 lon0 : ℚ) : List Boundary → Option Boundary
  | [] => none
  | b :: rest =>
    match argminD2 lat0 lon0 rest with
    | none => some b
    | some c => if dist2 b lat0 lon0 ≤ dist2 c lat0 lon0 then some b else some c

/-- End of the matcher loop: with more than one candidate and finite
coordinates pick the nearest-centroid candidate, otherwise `iloc[0]`. -/
def pickBest (row : CityRow) (cands : List Boundary) : Option Boundary :=
  match cands with
  | [] => none
  | b :: rest =>
    match rest, row.lat, row.lon with
    | _ :: _, some la, some lo => argminD2 la lo (b :: rest)
    | _, _, _ => some b

/-- The manual-override stage finds nothing to select for this row:
either no override name resolves, or the resolved name occurs nowhere in
the boundary set's `NAME` column. -/
def manualMissB (gdf : List Boundary) (city city_full : String) : Bool :=
  match resolve_manual_cbsa_name city city_full with
  | none => true
  | some m => (gdf.filter (fun b => b.name = m)).isEmpty

/-- Stages 2–5 for one row: string candidates then tie-break. -/
def matchCityStr (gdf : List Boundary) (row : CityRow) : Option Boundary :=
  pickBest row (stringCandidates gdf row)

/-- One iteration of the matcher loop in `build_city_cbsa_polygons`:
skip rows with an empty stripped label; try the manual override (selecting
`iloc[0]` of the exact-`NAME` matches when non-empty); otherwise run the
string-matching stages and the tie-break. -/
def matchCity (gdf : List Boundary) (row : CityRow) : Option Boundary :=
  let cf := strTrim row.city_full
  if cf = "" then none
  else
    let row' : CityRow := { row with city_full := cf }
    match resolve_manual_cbsa_name row.city cf with
    | some mname =>
      match gdf.filter (fun b => b.name = mname) with
      | b :: _ => some b
      | [] => matchCityStr gdf row'
    | none => matchCityStr gdf row'

/-- Output record of `build_city_cbsa_polygons` before ranking. -/
structure MatchedRecord where
  city : String
  city_full : String
  metro_name : String
  avg_metric_value : ℚ
  boundary : Boundary
deriving DecidableEq, Repr

/-- Function `build_city_cbsa_polygons`: run the matcher loop over the aggregated
city rows (dropping unmatched rows), then attach rankings over the
matched set by `avg_metric_value`. -/
def build_city_cbsa_polygons (df_city : List CityRow) (gdf : List Boundary) :
    List (RankedRow MatchedRecord) :=
  let records := df_city.flatMap (fun row =>
    match matchCity gdf row with
    | none => []
    | some b =>
      [{ city := row.city
         city_full := strTrim row.city_full
         metro_name := strTrim row.city_full
         avg_metric_value := row.avg_metric_value
         boundary := b }])
  compute_rankings MatchedRecord.avg_metric_value records

/-! ## ZIP→metro filter (`geo_utils.py` / `app.py`) -/

/-- A row of `df_zip_metric` as read by `get_zip_polygons_for_metro`. -/
structure ZipMetricRow where
  city : String
  zip_code_str : String
  metric_value : Option ℚ
  city_full : String
deriving DecidableEq, Repr

/-- A ZCTA boundary row: the zero-padded ZIP string and an abstract
geometry identifier. -/
structure ZctaShape where
  zip_code_str : String
  geomId : ℕ
deriving DecidableEq, Repr

/-- Function `get_zip_polygons_for_metro`: filter the ZIP metric table to the
selected city and drop rows with NaN metric; if nothing is left return the
empty pair; otherwise deduplicate the `(zip, metric, city_full)` columns
and inner-join the ZCTA shapes against them on `zip_code_str`. -/
def get_zip_polygons_for_metro (selected_city : String)
    (zcta_shapes : List ZctaShape) (df_zip_metric : List ZipMetricRow) :
    List ZipMetricRow × List (ZctaShape × (String × Option ℚ × String)) :=
  let zip_df_city :=
    (df_zip_metric.filter (fun r => r.city = selected_city)).filter
      (fun r => r.metric_value.isSome)
  if zip_df_city.isEmpty then (zip_df_city, [])
  else
    let zip_df_small :=
      dedupFirst (zip_df_city.map (fun r => (r.zip_code_str, r.metric_value, r.city_full)))
    let gdf_merge := zcta_shapes.flatMap (fun s =>
      (zip_df_small.filter (fun t => t.1 = s.zip_code_str)).map (fun t => (s, t)))
    (zip_df_city, gdf_merge)

/-- The ZIP-view row selection in `app.py`: take the per-city metric rows,
keep those with a metric value, and keep only ZIPs that appear in the
merged polygon table. -/
def zipViewRows (selected_city : String) (zcta_shapes : List ZctaShape)
    (df_zip_metric : List ZipMetricRow) : List ZipMetricRow :=
  let zp := get_zip_polygons_for_metro selected_city zcta_shapes df_zip_metric
  let zdc := zp.1.filter (fun r => r.metric_value.isSome)
  let valid := zp.2.map (fun p => p.1.zip_code_str)
  zdc.filter (fun r => valid.any (fun z => z = r.zip_code_str))

/-! ## Stage-3 composites and concrete instances used in the statements -/

/-- The token-matched candidate set of stage 3 (before any state
restriction) for a row with the given (already stripped) display label. -/
def fuzzyBase (gdf : List Boundary) (city city_full : String) : List Boundary :=
  tokenMatches gdf (build_city_tokens (parse_city_state city city_full).1)

/-- The state-restricted stage-3 candidate set. -/
def fuzzyStateSel (gdf : List Boundary) (city city_full : String) : List Boundary :=
  stateMatches (fuzzyBase gdf city city_full) (parse_city_state city city_full).2

/-- The Washington CBSA boundary named by the manual map. -/
def cbsaWashington : Boundary :=
  ⟨"Washington-Arlington-Alexandria, DC-VA-MD-WV", 38, -77, 0⟩

/-- An aggregated row whose display label is `"Washington, DC"`. -/
def rowWashingtonDC : CityRow := ⟨"Washington", "Washington, DC", 10, some 38, some (-77)⟩

/-- An aggregated row whose display label is the manual-map key
`"dc_metro"`. -/
def rowDcMetroKey : CityRow := ⟨"dc_metro", "dc_metro", 10, none, none⟩

/-- A boundary matching the token "springfield" but not the state "ZZ". -/
def cbsaSpringfieldIL : Boundary := ⟨"Springfield, IL", 39, -89, 1⟩

/-- A row parsing to base "Springfield" and state "ZZ". -/
def rowSpringfieldZZ : CityRow := ⟨"Springfield", "Springfield, ZZ", 5, none, none⟩

/-- A boundary whose name equals a row label exactly. -/
def cbsaSeattleExact : Boundary := ⟨"Seattle", 47, -122, 2⟩

/-- A boundary whose name strictly contains that same row label. -/
def cbsaSeattleWider : Boundary := ⟨"Seattle metro", 47, -122, 3⟩

/-- Boundary set holding a substring match ahead of an exact match. -/
def gdfSeattle : List Boundary := [cbsaSeattleWider, cbsaSeattleExact]

/-- The row `"Seattle"` (no state suffix). -/
def rowSeattle : CityRow := ⟨"Seattle", "Seattle", 1, none, none⟩

/-- A "boston"-containing row for the override-miss scenario. -/
def rowBostonMA : CityRow := ⟨"Boston", "Boston, MA", 2, none, none⟩

/-- Two equally named boundaries with distinct centroids (tie-break demo). -/
def cbsaTwinFar : Boundary := ⟨"Twin City", 0, 0, 4⟩

/-- The nearer of the two equally named boundaries. -/
def cbsaTwinNear : Boundary := ⟨"Twin City", 3, 4, 5⟩

/-- Boundary set listing the farther twin first. -/
def gdfTwin : List Boundary := [cbsaTwinFar, cbsaTwinNear]

/-- A row with coordinates sitting on the near twin's centroid. -/
def rowTwin : CityRow := ⟨"Twin City", "Twin City", 1, some 3, some 4⟩

/-- One-row PTI input whose ratio lands exactly on 0.5. -/
def dfPti : List PtiRow := [⟨some 2500, some 5000⟩]

/-- YoY input with identical group means in 2023 and 2024. -/
def dfYoYEq : List YRow := [⟨"a", 2023, 3⟩, ⟨"a", 2024, 3⟩]

/-- YoY input whose exact percentage `100/3` does not survive rounding. -/
def dfYoYThird : List YRow := [⟨"a", 2023, 3⟩, ⟨"a", 2024, 4⟩]

/-- One ZCTA boundary for the ZIP-filter scenarios. -/
def zctaDemo : List ZctaShape := [⟨"00001", 0⟩]

/-- ZIP metric rows: one with a boundary, one without, one NaN. -/
def dfZipDemo : List ZipMetricRow :=
  [⟨"metroA", "00001", some 5, "Metro A"⟩,
   ⟨"metroA", "00002", some 6, "Metro A"⟩,
   ⟨"metroB", "00003", none, "Metro B"⟩]

/-! ## Helper lemmas about the matcher -/

/-- A boundary selected from the exact-match set carries the exactly
matching lowercased name. -/
lemma mem_exactMatches {gdf : List Boundary} {cfl : String} {b : Boundary}
    (h : b ∈ exactMatches gdf cfl) : strLower b.name = cfl := by
  unfold exactMatches at h
  rw [List.mem_filter] at h
  simpa using h.2

/-- Function `argminD2` never fails on a non-empty list. -/
lemma argminD2_ne_none (la lo : ℚ) (a : Boundary) (t : List Boundary) :
    ¬ argminD2 la lo (a :: t) = none := by
  simp only [argminD2]
  cases argminD2 la lo t with
  | none => simp
  | some c =>
    split
    · simp
    · split <;> simp

/-- Function `argminD2` returns an element of its input list. -/
lemma argminD2_mem (la lo : ℚ) (l : List Boundary) (b : Boundary)
    (h : argminD2 la lo l = some b) : b ∈ l := by
  induction l generalizing b with
  | nil => simp [argminD2] at h
  | cons a t ih =>
    cases harg : argminD2 la lo t with
    | none =>
      simp only [argminD2, harg] at h
      simp at h
      simp [h]
    | some c =>
      simp only [argminD2, harg] at h
      split at h
      · simp at h; simp [h]
      · simp at h; subst h; exact List.mem_cons_of_mem a (ih c harg)

/-- Function `argminD2` returns a candidate of minimal squared distance. -/
lemma argminD2_le (la lo : ℚ) (l : List Boundary) (b : Boundary)
    (h : argminD2 la lo l = some b) :
    ∀ c ∈ l, dist2 b la lo ≤ dist2 c la lo := by
  induction l generalizing b with
  | nil => simp [argminD2] at h
  | cons a t ih =>
    cases harg : argminD2 la lo t with
    | none =>
      have ht : t = [] := by
        cases t with
        | nil => rfl
        | cons x s => exact absurd harg (argminD2_ne_none la lo x s)
      subst ht
      simp only [argminD2, harg] at h
      simp at h
      subst h
      intro c hc
      simp at hc
      subst hc
      exact le_refl _
    | some c =>
      simp only [argminD2, harg] at h
      split at h
      case isTrue hle =>
        simp at h
        subst h
        intro d hd
        rcases List.mem_cons.mp hd with rfl | hdt
        · exact le_refl _
        · exact le_trans hle (ih c harg d hdt)
      case isFalse hle =>
        simp at h
        subst h
        intro d hd
        rcases List.mem_cons.mp hd with rfl | hdt
        · exact le_of_not_le hle
        · exact ih _ harg d hdt

/-- Function `argminD2` succeeds on a non-empty list. -/
lemma argminD2_eq_some (la lo : ℚ) (l : List Boundary) (hl : ¬ l = []) :
    ∃ b, argminD2 la lo l = some b := by
  cases l with
  | nil => exact absurd rfl hl
  | cons a t =>
    cases hr : argminD2 la lo (a :: t) with
    | none => exact absurd hr (argminD2_ne_none la lo a t)
    | some b => exact ⟨b, rfl⟩

/-- Function `pickBest` returns an element of its candidate list. -/
lemma pickBest_mem {row : CityRow} {cands : List Boundary} {b : Boundary}
    (h : pickBest row cands = some b) : b ∈ cands := by
  cases cands with
  | nil => simp [pickBest] at h
  | cons a t =>
    cases t with
    | nil =>
      simp only [pickBest] at h
      simp at h
      simp [h]
    | cons x s =>
      cases hla : row.lat with
      | none =>
        simp only [pickBest, hla] at h
        simp at h
        simp [h]
      | some la =>
        cases hlo : row.lon with
        | none =>
          simp only [pickBest, hla, hlo] at h
          simp at h
          simp [h]
        | some lo =>
          simp only [pickBest, hla, hlo] at h
          exact argminD2_mem la lo _ b h

/-- Without a usable coordinate, or with at most one candidate, `pickBest`
is `iloc[0]`. -/
lemma pickBest_head (row : CityRow) (cands : List Boundary)
    (h : row.lat = none ∨ row.lon = none ∨ cands.length ≤ 1) :
    pickBest row cands = cands.head? := by
  cases cands with
  | nil => rfl
  | cons a t =>
    cases t with
    | nil => rfl
    | cons x s =>
      unfold pickBest
      rcases h with hla | hlo | hlen
      · rw [hla]; rfl
      · cases hla : row.lat with
        | none => rfl
        | some la => rw [hlo]; rfl
      · simp at hlen

/-- When the manual-override stage selects nothing, the matcher runs the
string stages on the trimmed row. -/
lemma matchCity_manualMiss (gdf : List Boundary) (row : CityRow)
    (h0 : ¬ strTrim row.city_full = "")
    (h1 : manualMissB gdf row.city (strTrim row.city_full) = true) :
    matchCity gdf row
      = matchCityStr gdf { row with city_full := strTrim row.city_full } := by
  unfold manualMissB at h1
  cases hres : resolve_manual_cbsa_name row.city (strTrim row.city_full) with
  | none => simp only [matchCity, hres, if_neg h0]
  | some m =>
    rw [hres] at h1
    cases hf : gdf.filter (fun b => b.name = m) with
    | nil => simp only [matchCity, hres, hf, if_neg h0]
    | cons b t =>
      simp [hf] at h1

/-- With an exact-name match present, the string stages produce exactly
the exact-match set. -/
lemma stringCandidates_exact (gdf : List Boundary) (row : CityRow)
    (he : ¬ exactMatches gdf (strLower row.city_full) = []) :
    stringCandidates gdf row = exactMatches gdf (strLower row.city_full) := by
  unfold stringCandidates
  cases hex : exactMatches gdf (strLower row.city_full) with
  | nil => exact absurd hex he
  | cons b t => simp [hex]

/-- The string stages reduce to the state-restricted fuzzy stage when the
exact and substring stages fail and a state code plus a non-empty
token-matched base set are present. -/
lemma stringCandidates_fuzzy (gdf : List Boundary) (row : CityRow)
    (hex : exactMatches gdf (strLower row.city_full) = [])
    (hco : containsMatches gdf (strLower row.city_full) = [])
    (hst : ¬ (parse_city_state row.city row.city_full).2 = "")
    (hbase : ¬ fuzzyBase gdf row.city row.city_full = []) :
    stringCandidates gdf row =
      (if fuzzyStateSel gdf row.city row.city_full = [] then []
       else fuzzyStateSel gdf row.city row.city_full) := by
  have htok : ¬ build_city_tokens (parse_city_state row.city row.city_full).1 = [] := by
    intro ht
    apply hbase
    unfold fuzzyBase tokenMatches
    rw [ht]
    simp
  unfold fuzzyStateSel fuzzyBase at *
  simp only [stringCandidates, hex, hco, List.isEmpty_nil, ite_self, eq_self_iff_true,
    if_true]
  rw [if_pos htok, if_pos hbase, if_pos hst]
  by_cases hboth :
      stateMatches (tokenMatches gdf (build_city_tokens (parse_city_state row.city row.city_full).1))
        (parse_city_state row.city row.city_full).2 = []
  · rw [if_neg (by simpa using hboth), if_pos hboth]
  · rw [if_pos hboth, if_neg hboth]

/-! ## Claim theorems -/

/-- C1: the matcher tries manual override, exact match, substring
containment and tokenized fuzzy matching in that strict order, and in
particular, when a boundary with exactly the normalized city label exists
(and the manual-override stage selects nothing), the candidate set is the
exact-match set — the substring stage is never consulted — and the
selected boundary carries the exactly matching name. -/
theorem matcher_exact_stage_wins (gdf : List Boundary) (row : CityRow)
    (h0 : ¬ strTrim row.city_full = "")
    (h1 : manualMissB gdf row.city (strTrim row.city_full) = true)
    (he : ¬ exactMatches gdf (strLower (strTrim row.city_full)) = []) :
    stringCandidates gdf { row with city_full := strTrim row.city_full }
        = exactMatches gdf (strLower (strTrim row.city_full)) ∧
    matchCity gdf row
        = pickBest row (exactMatches gdf (strLower (strTrim row.city_full))) ∧
    ∀ b, matchCity gdf row = some b →
      strLower b.name = strLower (strTrim row.city_full) := by
  have hsc :
      stringCandidates gdf { row with city_full := strTrim row.city_full }
        = exactMatches gdf (strLower (strTrim row.city_full)) :=
    stringCandidates_exact gdf { row with city_full := strTrim row.city_full } he
  have hmc :
      matchCity gdf row
        = pickBest row (exactMatches gdf (strLower (strTrim row.city_full))) := by
    rw [matchCity_manualMiss gdf row h0 h1]
    unfold matchCityStr
    rw [hsc]
    rfl
  refine ⟨hsc, hmc, ?_⟩
  intro b hb
  rw [hmc] at hb
  exact mem_exactMatches (pickBest_mem hb)

/-- C1 witness: a boundary set where both an exact-name match and a
substring match exist (the substring one listed first); the exact match
wins. -/
theorem matcher_exact_stage_wins_witness :
    stringCandidates gdfSeattle { rowSeattle with city_full := strTrim rowSeattle.city_full }
        = exactMatches gdfSeattle (strLower (strTrim rowSeattle.city_full)) ∧
    matchCity gdfSeattle rowSeattle
        = pickBest rowSeattle (exactMatches gdfSeattle (strLower (strTrim rowSeattle.city_full))) :=
  ⟨(matcher_exact_stage_wins gdfSeattle rowSeattle (by decide) (by decide) (by decide)).1,
   (matcher_exact_stage_wins gdfSeattle rowSeattle (by decide) (by decide) (by decide)).2.1⟩

/-- C2 counterexample: for the row "Springfield, ZZ" against one boundary
"Springfield, IL", the token stage matches, the state restriction empties
the candidate set, and the row is dropped — there is no fallback to the
unrestricted token-matched set, contradicting the claim that the row
still obtains candidates. -/
theorem fuzzy_state_fallback_cex :
    parse_city_state "Springfield" "Springfield, ZZ" = ("Springfield", "ZZ") ∧
    fuzzyBase [cbsaSpringfieldIL] "Springfield" "Springfield, ZZ" = [cbsaSpringfieldIL] ∧
    fuzzyStateSel [cbsaSpringfieldIL] "Springfield" "Springfield, ZZ" = [] ∧
    matchCity [cbsaSpringfieldIL] rowSpringfieldZZ = none := by decide

/-- C2 (amended): in the fuzzy stage with a parsed state code and a
non-empty token-matched set, the candidates are restricted to boundary
names containing the uppercased state code; when that restriction yields
zero candidates the matcher does NOT fall back — the candidate set stays
empty and the row is dropped (no match). -/
theorem fuzzy_state_no_fallback (gdf : List Boundary) (row : CityRow)
    (h0 : ¬ strTrim row.city_full = "")
    (h1 : manualMissB gdf row.city (strTrim row.city_full) = true)
    (hex : exactMatches gdf (strLower (strTrim row.city_full)) = [])
    (hco : containsMatches gdf (strLower (strTrim row.city_full)) = [])
    (hst : ¬ (parse_city_state row.city (strTrim row.city_full)).2 = "")
    (hbase : ¬ fuzzyBase gdf row.city (strTrim row.city_full) = []) :
    (¬ fuzzyStateSel gdf row.city (strTrim row.city_full) = [] →
       matchCity gdf row
         = pickBest row (fuzzyStateSel gdf row.city (strTrim row.city_full))) ∧
    (fuzzyStateSel gdf row.city (strTrim row.city_full) = [] →
       matchCity gdf row = none) := by
  have hmc := matchCity_manualMiss gdf row h0 h1
  have hsc :=
    stringCandidates_fuzzy gdf { row with city_full := strTrim row.city_full }
      hex hco hst hbase
  dsimp only at hsc
  constructor
  · intro hboth
    rw [hmc]
    unfold matchCityStr
    rw [hsc, if_neg hboth]
    rfl
  · intro hboth
    rw [hmc]
    unfold matchCityStr
    rw [hsc, if_pos hboth]
    rfl

/-- C2 witness: the Springfield/ZZ row instantiates every hypothesis of
the amended claim; the emptied state restriction drops the row. -/
theorem fuzzy_state_no_fallback_witness :
    matchCity [cbsaSpringfieldIL] rowSpringfieldZZ = none :=
  (fuzzy_state_no_fallback [cbsaSpringfieldIL] rowSpringfieldZZ (by decide) (by decide)
      (by decide) (by decide) (by decide) (by decide)).2 (by decide)

/-- C3 counterexample: the manual override does not fire for
`city_full = "Washington, DC"` — the manual map key is `"dc_metro"`. -/
theorem washington_dc_not_via_manual :
    ¬ (resolve_manual_cbsa_name "Washington" "Washington, DC"
        = some "Washington-Arlington-Alexandria, DC-VA-MD-WV") := by decide

/-- C3 (amended): the row "Washington, DC" still resolves to the
Washington CBSA boundary, but through the tokenized fuzzy stage (the
manual stage yields no name and the exact/substring stages fail); the
manual override applies only to the literal key "dc_metro", which maps
directly to the same boundary. -/
theorem manual_override_dc_key :
    resolve_manual_cbsa_name "Washington" "Washington, DC" = none ∧
    exactMatches [cbsaWashington] (strLower "Washington, DC") = [] ∧
    containsMatches [cbsaWashington] (strLower "Washington, DC") = [] ∧
    fuzzyStateSel [cbsaWashington] "Washington" "Washington, DC" = [cbsaWashington] ∧
    matchCity [cbsaWashington] rowWashingtonDC = some cbsaWashington ∧
    resolve_manual_cbsa_name "dc_metro" "dc_metro"
      = some "Washington-Arlington-Alexandria, DC-VA-MD-WV" ∧
    matchCity [cbsaWashington] rowDcMetroKey = some cbsaWashington := by decide

/-- C10: a manual-override name absent from the boundary set does not
drop the row — the matcher falls through to the string-matching stages. -/
theorem manual_override_miss_falls_through (gdf : List Boundary) (row : CityRow)
    (m : String)
    (h0 : ¬ strTrim row.city_full = "")
    (h1 : resolve_manual_cbsa_name row.city (strTrim row.city_full) = some m)
    (h2 : gdf.filter (fun b => b.name = m) = []) :
    matchCity gdf row
      = matchCityStr gdf { row with city_full := strTrim row.city_full } := by
  apply matchCity_manualMiss gdf row h0
  unfold manualMissB
  simp [h1, h2]

/-- C10 witness: a "Boston, MA" row resolves a manual name that is not in
the boundary set; the matcher still runs the string stages. -/
theorem manual_override_miss_falls_through_witness :
    matchCity [cbsaSpringfieldIL] rowBostonMA
      = matchCityStr [cbsaSpringfieldIL]
          { rowBostonMA with city_full := strTrim rowBostonMA.city_full } :=
  manual_override_miss_falls_through [cbsaSpringfieldIL] rowBostonMA
    "Boston-Cambridge-Newton, MA-NH" (by decide) (by decide) (by decide)

/-- C4: with more than one string-stage candidate and finite coordinates,
the matcher selects a candidate of minimal squared Euclidean distance in
degree space from centroid to row point; with no usable coordinate or at
most one candidate, it selects the first candidate in original order. -/
theorem tiebreak_nearest_centroid (gdf : List Boundary) (row : CityRow) :
    (∀ la lo : ℚ, row.lat = some la → row.lon = some lo →
       1 < (stringCandidates gdf row).length →
       ∃ b, matchCityStr gdf row = some b ∧ b ∈ stringCandidates gdf row ∧
         ∀ c ∈ stringCandidates gdf row, dist2 b la lo ≤ dist2 c la lo) ∧
    ((row.lat = none ∨ row.lon = none ∨ (stringCandidates gdf row).length ≤ 1) →
       matchCityStr gdf row = (stringCandidates gdf row).head?) := by
  constructor
  · intro la lo hla hlo hlen
    cases hcs : stringCandidates gdf row with
    | nil => rw [hcs] at hlen; simp at hlen
    | cons a t =>
      cases t with
      | nil => rw [hcs] at hlen; simp at hlen
      | cons x s =>
        have hp : matchCityStr gdf row = argminD2 la lo (a :: x :: s) := by
          unfold matchCityStr
          rw [hcs]
          unfold pickBest
          rw [hla, hlo]
        obtain ⟨b, hb⟩ := argminD2_eq_some la lo (a :: x :: s) (by simp)
        exact ⟨b, by rw [hp, hb], argminD2_mem la lo _ b hb, argminD2_le la lo _ b hb⟩
  · intro h
    unfold matchCityStr
    exact pickBest_head row _ h

/-- C4 witness: two equally named candidates; the matcher picks one at
minimal squared centroid distance from the row's point. -/
theorem tiebreak_nearest_centroid_witness :
    ∃ b, matchCityStr gdfTwin rowTwin = some b ∧ b ∈ stringCandidates gdfTwin rowTwin ∧
      ∀ c ∈ stringCandidates gdfTwin rowTwin, dist2 b 3 4 ≤ dist2 c 3 4 :=
  (tiebreak_nearest_centroid gdfTwin rowTwin).1 3 4 (by decide) (by decide) (by decide)

/-- Concrete evaluation of `compute_pti` on the boundary row: a PTI of
exactly 0.5 survives the filter. -/
lemma compute_pti_dfPti_eval :
    compute_pti dfPti = [(⟨some 2500, some 5000⟩, 1/2)] := by
  norm_num [compute_pti, dfPti, List.filterMap_cons]

/-- C5 counterexample: the output PTI value 0.5 contradicts the claimed
strict lower bound `0.5 < PTI`. -/
theorem compute_pti_half_boundary_cex :
    ¬ (∀ rp ∈ compute_pti dfPti, 1/2 < rp.2) := by
  intro h
  have hlt := h (⟨some 2500, some 5000⟩, 1/2) (by simp [compute_pti_dfPti_eval])
  exact absurd hlt (lt_irrefl _)

/-- C5 (amended): every output row of `compute_pti` has a present price
`> 0`, a present income `≥ 5000`, and `PTI = price / income` lying in the
closed-below interval `[0.5, 50]`; all other rows are absent from the
output. -/
theorem compute_pti_spec (df : List PtiRow) :
    ∀ rp ∈ compute_pti df, ∃ p i,
      rp.1.median_sale_price = some p ∧ rp.1.per_capita_income = some i ∧
      0 < p ∧ 5000 ≤ i ∧ rp.2 = p / i ∧ 1/2 ≤ rp.2 ∧ rp.2 ≤ 50 := by
  intro rp hrp
  simp only [compute_pti] at hrp
  rw [List.mem_filterMap] at hrp
  obtain ⟨x, hx, hfx⟩ := hrp
  rw [List.mem_map] at hx
  obtain ⟨z, hz, hgz⟩ := hx
  rw [List.mem_map] at hz
  obtain ⟨r, hr, hhz⟩ := hz
  rw [List.mem_filter] at hr
  obtain ⟨hrdf, hP⟩ := hr
  cases hp : r.median_sale_price with
  | none => rw [hp] at hP; simp at hP
  | some p =>
    cases hi : r.per_capita_income with
    | none => rw [hp, hi] at hP; simp at hP
    | some i =>
      rw [hp, hi] at hP
      simp only [Bool.and_eq_true, decide_eq_true_eq] at hP
      subst hhz
      rw [hp, hi] at hgz
      simp only [Option.getD_some] at hgz
      by_cases hcond : (p / i < 1/2 ∨ 50 < p / i)
      · rw [if_pos hcond] at hgz
        subst hgz
        simp at hfx
      · rw [if_neg hcond] at hgz
        subst hgz
        simp at hfx
        push_neg at hcond
        subst hfx
        exact ⟨p, i, hp, hi, hP.1, hP.2, rfl, hcond.1, hcond.2⟩

/-- C5 witness: the boundary row instantiated in the amended claim. -/
theorem compute_pti_spec_witness :
    ∃ p i, some (2500 : ℚ) = some p ∧ some (5000 : ℚ) = some i ∧
      0 < p ∧ 5000 ≤ i ∧ (1/2 : ℚ) = p / i ∧ (1/2 : ℚ) ≤ 1/2 ∧ (1/2 : ℚ) ≤ 50 :=
  compute_pti_spec dfPti (⟨some 2500, some 5000⟩, 1/2) (by simp [compute_pti_dfPti_eval])

/-- Concrete evaluation of `compute_yoy` on equal group means. -/
lemma compute_yoy_dfYoYEq_eval :
    compute_yoy dfYoYEq 2024 = [⟨"a", FVal.fin 3, FVal.fin 0, FVal.fin 0⟩] := by
  norm_num [compute_yoy, dfYoYEq, dedupFirst, dedupFirstAux, groupMean, yoyPct, yoyChange,
    roundTo1, round_eq]

/-- Concrete evaluation of `compute_yoy` when the exact percentage is
`100/3`: the stored value is the rounded `33.3`. -/
lemma compute_yoy_dfYoYThird_eval :
    compute_yoy dfYoYThird 2024 = [⟨"a", FVal.fin 4, FVal.fin 1, FVal.fin (333/10)⟩] := by
  norm_num [compute_yoy, dfYoYThird, dedupFirst, dedupFirstAux, groupMean, yoyPct, yoyChange,
    roundTo1, round_eq]

/-- C6 counterexample: with current mean 4 over previous mean 3 the claim
demands `yoy_pct = (4-3)/3*100 = 100/3`, but the code stores the rounded
value `333/10`. -/
theorem compute_yoy_rounding_cex :
    (compute_yoy dfYoYThird 2024).map YoYRow.yoy_pct = [FVal.fin (333/10)] ∧
    ¬ (333/10 : ℚ) = ((4 - 3) / 3 * 100 : ℚ) := by
  constructor
  · rw [compute_yoy_dfYoYThird_eval]; rfl
  · norm_num

/-- C6 (amended): in `compute_yoy`, a group with prior-year rows and a
non-zero previous mean gets `yoy_pct` equal to the percentage change
rounded to one decimal; a group with no prior-year rows (or an input with
no prior-year rows at all) gets NaN, never 0; a zero previous mean yields
a non-finite value (NaN or a signed infinity), never a finite 0; and when
the previous mean is non-zero and equals the current mean, `yoy_pct` is
exactly 0. -/
theorem compute_yoy_spec (df_all : List YRow) (y : ℤ) :
    ∀ out ∈ compute_yoy df_all y,
      (df_all.filter (fun r => r.year = y - 1) = [] → out.yoy_pct = FVal.nan) ∧
      ((df_all.filter (fun r => r.year = y - 1)).filter (fun r => r.key = out.key) = [] →
         out.yoy_pct = FVal.nan) ∧
      (¬ (df_all.filter (fun r => r.year = y - 1)).filter (fun r => r.key = out.key) = [] →
         (¬ groupMean (df_all.filter (fun r => r.year = y - 1)) out.key = 0 →
            out.yoy_pct = FVal.fin (roundTo1
              ((groupMean (df_all.filter (fun r => r.year = y)) out.key
                  - groupMean (df_all.filter (fun r => r.year = y - 1)) out.key)
                / groupMean (df_all.filter (fun r => r.year = y - 1)) out.key * 100))) ∧
         (groupMean (df_all.filter (fun r => r.year = y - 1)) out.key = 0 →
            ∀ q : ℚ, ¬ out.yoy_pct = FVal.fin q) ∧
         (¬ groupMean (df_all.filter (fun r => r.year = y - 1)) out.key = 0 →
            groupMean (df_all.filter (fun r => r.year = y - 1)) out.key
              = groupMean (df_all.filter (fun r => r.year = y)) out.key →
            out.yoy_pct = FVal.fin 0)) := by
  intro out hout
  simp only [compute_yoy] at hout
  by_cases hprev : (df_all.filter (fun r => r.year = y - 1)).isEmpty = true
  · rw [if_pos hprev] at hout
    rw [List.mem_map] at hout
    obtain ⟨r, hr, hre⟩ := hout
    subst hre
    have hempty : df_all.filter (fun r => r.year = y - 1) = [] := by
      simpa using hprev
    exact ⟨fun _ => rfl, fun _ => rfl,
      fun hne => absurd (by rw [hempty]; rfl) hne⟩
  · rw [if_neg hprev] at hout
    rw [List.mem_map] at hout
    obtain ⟨k, hk, hke⟩ := hout
    subst hke
    dsimp only
    refine ⟨?_, ?_, ?_⟩
    · intro hempty
      rw [hempty] at hprev
      simp at hprev
    · intro hgrp
      rw [hgrp]
      simp [yoyPct]
    · intro hgrp
      have hie : ((df_all.filter (fun r => r.year = y - 1)).filter
          (fun r => r.key = k)).isEmpty = false := by
        cases hfe : (df_all.filter (fun r => r.year = y - 1)).filter (fun r => r.key = k) with
        | nil => exact absurd hfe hgrp
        | cons a t => rfl
      rw [hie]
      simp only [Bool.false_eq_true, if_false]
      refine ⟨?_, ?_, ?_⟩
      · intro hpz
        simp only [yoyPct]
        rw [if_neg hpz]
      · intro hpz q
        simp only [yoyPct]
        rw [if_pos hpz]
        split
        · simp
        · split <;> simp
      · intro hpz heq
        simp only [yoyPct]
        rw [if_neg hpz]
        rw [← heq]
        simp [roundTo1]

/-- The previous-year group mean of the equal-means demo input. -/
lemma groupMean_dfYoYEq_prev :
    groupMean (dfYoYEq.filter (fun r => r.year = 2023)) "a" = 3 := by
  norm_num [dfYoYEq, groupMean]

/-- The current-year group mean of the equal-means demo input. -/
lemma groupMean_dfYoYEq_cur :
    groupMean (dfYoYEq.filter (fun r => r.year = 2024)) "a" = 3 := by
  norm_num [dfYoYEq, groupMean]

/-- C6 witness: equal prior- and current-year group means give a
`yoy_pct` of exactly 0. -/
theorem compute_yoy_spec_witness :
    (⟨"a", FVal.fin 3, FVal.fin 0, FVal.fin 0⟩ : YoYRow).yoy_pct = FVal.fin 0 :=
  (((compute_yoy_spec dfYoYEq 2024 ⟨"a", FVal.fin 3, FVal.fin 0, FVal.fin 0⟩
        (by simp [compute_yoy_dfYoYEq_eval])).2.2
      (by decide)).2.2
    (by simp [groupMean_dfYoYEq_prev])
    (by simp [groupMean_dfYoYEq_prev, groupMean_dfYoYEq_cur]))

/-- Concrete evaluation of `compute_rankings` on three distinct values:
the middle row's exact percentile `200/3` is stored rounded as `66.7`. -/
lemma compute_rankings_demo_eval :
    compute_rankings (fun q => q) [(3:ℚ), 2, 1]
      = [⟨3, 1, 3, 100⟩, ⟨2, 2, 3, 667/10⟩, ⟨1, 3, 3, 333/10⟩] := by
  norm_num [compute_rankings, rankedFor, rankOf, roundTo1, round_eq,
    List.countP, List.countP.go]

/-- C7 counterexample: the stored percentile is rounded to one decimal,
so it differs from the exact formula `(rank_total - rank + 1) /
rank_total * 100` (66.7 versus 200/3). -/
theorem compute_rankings_percentile_cex :
    ¬ (∀ rr ∈ compute_rankings (fun q => q) [(3:ℚ), 2, 1],
        rr.percentile = ((rr.rank_total : ℚ) - rr.rank + 1) / rr.rank_total * 100) := by
  intro h
  have h2 := h ⟨2, 2, 3, 667/10⟩ (by simp [compute_rankings_demo_eval])
  norm_num at h2

/-- C7 (amended): for every non-empty input, every output row of
`compute_rankings` has a 1-based descending rank equal to one plus the
number of strictly greater values (so maximal values get rank 1 and ties
share the minimum rank), `rank_total` equal to the row count, and
percentile equal to `(rank_total - rank + 1) / rank_total * 100` rounded
to one decimal. -/
theorem compute_rankings_spec {α : Type} (value : α → ℚ) (df : List α)
    (hne : ¬ df = []) :
    ∀ rr ∈ compute_rankings value df,
      rr.rank = 1 + (df.map value).countP (fun w => decide (value rr.row < w)) ∧
      1 ≤ rr.rank ∧ rr.rank ≤ df.length ∧
      ((∀ a ∈ df, value a ≤ value rr.row) → rr.rank = 1) ∧
      rr.rank_total = df.length ∧
      rr.percentile = roundTo1
        (((df.length : ℚ) - rr.rank + 1) / df.length * 100) ∧
      ∀ rr2 ∈ compute_rankings value df,
        value rr2.row = value rr.row → rr2.rank = rr.rank := by
  intro rr hrr
  simp only [compute_rankings] at hrr
  rw [List.mem_map] at hrr
  obtain ⟨r, hr, hre⟩ := hrr
  subst hre
  unfold rankedFor
  dsimp only
  have hcount : (df.map value).countP (fun w => decide (value r < w)) < df.length := by
    have hvm : value r ∈ df.map value := List.mem_map_of_mem value hr
    have hle : (df.map value).countP (fun w => decide (value r < w))
        ≤ (df.map value).length := List.countP_le_length _
    have hne2 : ¬ (df.map value).countP (fun w => decide (value r < w))
        = (df.map value).length := by
      intro hEq
      have hall := List.countP_eq_length.mp hEq (value r) hvm
      simp at hall
    rw [List.length_map] at hle hne2
    omega
  refine ⟨rfl, ?_, ?_, ?_, rfl, rfl, ?_⟩
  · unfold rankOf
    exact Nat.le_add_right 1 _
  · unfold rankOf
    omega
  · intro hmax
    unfold rankOf
    have hzero : (df.map value).countP (fun w => decide (value r < w)) = 0 := by
      rw [List.countP_eq_zero]
      intro w hw
      rw [List.mem_map] at hw
      obtain ⟨a, ha, rfl⟩ := hw
      simpa using not_lt.mpr (hmax a ha)
    rw [hzero]
  · intro rr2 hrr2 hveq
    simp only [compute_rankings] at hrr2
    rw [List.mem_map] at hrr2
    obtain ⟨r2, hr2, hre2⟩ := hrr2
    subst hre2
    simp only [rankedFor] at hveq ⊢
    rw [hveq]

/-- C7 witness: the middle row of the three-value demo satisfies the
amended invariants. -/
theorem compute_rankings_spec_witness :
    1 ≤ (⟨2, 2, 3, (667/10 : ℚ)⟩ : RankedRow ℚ).rank ∧
    (⟨2, 2, 3, (667/10 : ℚ)⟩ : RankedRow ℚ).rank ≤ ([(3:ℚ), 2, 1]).length ∧
    (⟨2, 2, 3, (667/10 : ℚ)⟩ : RankedRow ℚ).rank_total = ([(3:ℚ), 2, 1]).length ∧
    (⟨2, 2, 3, (667/10 : ℚ)⟩ : RankedRow ℚ).percentile
      = roundTo1 (((([(3:ℚ), 2, 1]).length : ℚ)
          - (⟨2, 2, 3, (667/10 : ℚ)⟩ : RankedRow ℚ).rank + 1)
          / ([(3:ℚ), 2, 1]).length * 100) :=
  let h := compute_rankings_spec (fun q => q) [(3:ℚ), 2, 1] (by decide)
    ⟨2, 2, 3, 667/10⟩ (by simp [compute_rankings_demo_eval])
  ⟨h.2.1, h.2.2.1, h.2.2.2.2.1, h.2.2.2.2.2.1⟩

/-- C8: `compute_rankings` is permutation-invariant: under any reordering
of the input rows, each row is assigned the same rank, rank_total and
percentile (the per-row output `rankedFor` is unchanged), and the output
table is the corresponding reordering. -/
theorem compute_rankings_perm_invariant {α : Type} (value : α → ℚ)
    (l1 l2 : List α) (h : l1.Perm l2) :
    (∀ a : α, rankedFor value l1 a = rankedFor value l2 a) ∧
    (compute_rankings value l1).Perm (compute_rankings value l2) := by
  have hrank : ∀ v : ℚ, rankOf (l1.map value) v = rankOf (l2.map value) v := by
    intro v
    unfold rankOf
    rw [(h.map value).countP_eq]
  have hlen : l1.length = l2.length := h.length_eq
  have hfor : ∀ a : α, rankedFor value l1 a = rankedFor value l2 a := by
    intro a
    unfold rankedFor
    rw [hrank (value a), hlen]
  refine ⟨hfor, ?_⟩
  unfold compute_rankings
  have hfe : rankedFor value l1 = rankedFor value l2 := funext hfor
  rw [hfe]
  exact h.map (rankedFor value l2)

/-- C8 witness: swapping a two-row input changes no row's assigned
ranking columns. -/
theorem compute_rankings_perm_invariant_witness :
    rankedFor (fun q => q) [(3:ℚ), 2] 2 = rankedFor (fun q => q) [2, 3] 2 ∧
    (compute_rankings (fun q => q) [(3:ℚ), 2]).Perm
      (compute_rankings (fun q => q) [2, 3]) :=
  ⟨(compute_rankings_perm_invariant (fun q => q) [(3:ℚ), 2] [2, 3]
      (List.Perm.swap 2 3 [])).1 2,
   (compute_rankings_perm_invariant (fun q => q) [(3:ℚ), 2] [2, 3]
      (List.Perm.swap 2 3 [])).2⟩

/-- Elements of the deduplicated list come from the original list. -/
lemma dedupFirstAux_subset {α : Type} [DecidableEq α] (seen l : List α) :
    ∀ a ∈ dedupFirstAux seen l, a ∈ l := by
  induction l generalizing seen with
  | nil => intro a ha; simp [dedupFirstAux] at ha
  | cons x t ih =>
    intro a ha
    unfold dedupFirstAux at ha
    by_cases hx : seen.any (fun z => z = x) = true
    · rw [if_pos hx] at ha
      exact List.mem_cons_of_mem x (ih seen a ha)
    · rw [if_neg hx] at ha
      rcases List.mem_cons.mp ha with rfl | h2
      · exact List.mem_cons_self _ _
      · exact List.mem_cons_of_mem x (ih (x :: seen) a h2)

/-- First-occurrence deduplication never invents elements. -/
lemma dedupFirst_subset {α : Type} [DecidableEq α] (l : List α) :
    ∀ a ∈ dedupFirst l, a ∈ l :=
  dedupFirstAux_subset [] l

/-- The first component returned by the ZIP filter is always the
city-filtered, NaN-dropped metric table. -/
lemma zip_filter_fst (selected_city : String) (zcta : List ZctaShape)
    (dfz : List ZipMetricRow) :
    (get_zip_polygons_for_metro selected_city zcta dfz).1
      = (dfz.filter (fun r => r.city = selected_city)).filter
          (fun r => r.metric_value.isSome) := by
  simp only [get_zip_polygons_for_metro]
  split <;> rfl

/-- C9: the ZIP→metro filter returns an empty pair (not an error) when no
ZIP rows match the metro; the per-city table holds only rows of that city
with a defined metric; every merged row joins a ZCTA shape with a
deduplicated metric triple of matching ZIP; and the ZIP-view rows kept by
the app all have a defined metric and a ZIP present among the boundary
polygons (inner-join semantics). -/
theorem zip_filter_spec (selected_city : String) (zcta : List ZctaShape)
    (dfz : List ZipMetricRow) :
    ((∀ r ∈ dfz, ¬ r.city = selected_city) →
       get_zip_polygons_for_metro selected_city zcta dfz = ([], [])) ∧
    (∀ r ∈ (get_zip_polygons_for_metro selected_city zcta dfz).1,
       r.city = selected_city ∧ r.metric_value.isSome = true) ∧
    (∀ pr ∈ (get_zip_polygons_for_metro selected_city zcta dfz).2,
       pr.1 ∈ zcta ∧ pr.2.2.1.isSome = true ∧ pr.2.1 = pr.1.zip_code_str) ∧
    (∀ r ∈ zipViewRows selected_city zcta dfz,
       r.city = selected_city ∧ r.metric_value.isSome = true ∧
       ∃ s ∈ zcta, s.zip_code_str = r.zip_code_str) := by
  have hB : ∀ r ∈ (get_zip_polygons_for_metro selected_city zcta dfz).1,
      r.city = selected_city ∧ r.metric_value.isSome = true := by
    intro r hr
    rw [zip_filter_fst] at hr
    rw [List.mem_filter] at hr
    obtain ⟨hr1, hr2⟩ := hr
    rw [List.mem_filter] at hr1
    exact ⟨by simpa using hr1.2, hr2⟩
  have hC : ∀ pr ∈ (get_zip_polygons_for_metro selected_city zcta dfz).2,
      pr.1 ∈ zcta ∧ pr.2.2.1.isSome = true ∧ pr.2.1 = pr.1.zip_code_str := by
    intro pr hpr
    simp only [get_zip_polygons_for_metro] at hpr
    split at hpr
    · simp at hpr
    · rw [List.mem_flatMap] at hpr
      obtain ⟨s, hs, hpr2⟩ := hpr
      rw [List.mem_map] at hpr2
      obtain ⟨t, ht, hte⟩ := hpr2
      rw [List.mem_filter] at ht
      obtain ⟨htm, htz⟩ := ht
      have htm2 := dedupFirst_subset _ t htm
      rw [List.mem_map] at htm2
      obtain ⟨r, hrZ, hre⟩ := htm2
      rw [List.mem_filter] at hrZ
      subst hre
      subst hte
      exact ⟨hs, hrZ.2, by simpa using htz⟩
  refine ⟨?_, hB, hC, ?_⟩
  · intro hnone
    have hf1 : dfz.filter (fun r => r.city = selected_city) = [] := by
      rw [List.filter_eq_nil_iff]
      intro a ha
      simpa using hnone a ha
    simp [get_zip_polygons_for_metro, hf1]
  · intro r hr
    simp only [zipViewRows] at hr
    rw [List.mem_filter] at hr
    obtain ⟨hr1, hr2⟩ := hr
    rw [List.mem_filter] at hr1
    obtain ⟨hrA, hrB⟩ := hr1
    obtain ⟨hcity, hsome⟩ := hB r hrA
    refine ⟨hcity, hsome, ?_⟩
    rw [List.any_eq_true] at hr2
    obtain ⟨z, hz, hze⟩ := hr2
    rw [List.mem_map] at hz
    obtain ⟨p, hp, hpe⟩ := hz
    refine ⟨p.1, (hC p hp).1, ?_⟩
    rw [hpe]
    simpa using hze

/-- C9 witness: a metro with no ZIP rows yields the empty pair, and for a
metro with data the kept ZIP-view row has a defined metric and a boundary
polygon (the metric-only ZIP "00002" is excluded). -/
theorem zip_filter_spec_witness :
    get_zip_polygons_for_metro "metroC" zctaDemo dfZipDemo = ([], []) ∧
    ((⟨"metroA", "00001", some 5, "Metro A"⟩ : ZipMetricRow).city = "metroA" ∧
     (⟨"metroA", "00001", some 5, "Metro A"⟩ : ZipMetricRow).metric_value.isSome = true ∧
     ∃ s ∈ zctaDemo,
       s.zip_code_str = (⟨"metroA", "00001", some 5, "Metro A"⟩ : ZipMetricRow).zip_code_str) :=
  ⟨(zip_filter_spec "metroC" zctaDemo dfZipDemo).1 (by decide),
   (zip_filter_spec "metroA" zctaDemo dfZipDemo).2.2.2
     ⟨"metroA", "00001", some 5, "Metro A"⟩ (by decide)⟩
